import Mathlib

/-!
Verification development for the dynamic-routing application (`src/app.py`).

The pure computational parts of the source are embedded shallowly:

* `get_distance` (app.py lines 30-35) over exact reals, with Python `int()`
  truncation modelled by `pyInt` and `math.atan2` by the complex argument;
* `get_osrm_data` (lines 37-47) with the OSRM HTTP call abstracted as an
  oracle returning `Option` (`none` = network error / malformed response /
  timeout, all swallowed by the source's bare `except`);
* `solve_vrp` (lines 70-100): the node list, the pickup/dropoff index pairs
  and the final route walk are from the source; the combinatorial search
  itself is delegated by the source to the external OR-tools solver, which is
  not part of this repository, and is therefore modelled from the spec
  (cheapest insertion of pickup/dropoff pairs, pickup before dropoff,
  depot-first, stable tie-breaks, append-at-end fallback);
* `update_system` (lines 51-68) and the adding-passenger click handler
  (lines 179-185) as explicit state transformers over `SessionState`, with
  the two external collaborators passed in as function parameters.
-/

/-- Coordinates are (latitude, longitude) pairs of degrees, as in the source. -/
abbrev Coord : Type := ℝ × ℝ

/-- Python `int()` applied to a real: truncation toward zero. -/
noncomputable def pyInt (x : ℝ) : ℤ := if x < 0 then ⌈x⌉ else ⌊x⌋

/-- Python `math.radians`: degrees to radians. -/
noncomputable def radians (x : ℝ) : ℝ := x * Real.pi / 180

/-- Python `math.atan2 y x`, modelled as the argument of the complex number
`x + y*I` (same convention: result in `(-π, π]`, `atan2 0 0 = 0`). -/
noncomputable def atan2 (y x : ℝ) : ℝ := Complex.arg { re := x, im := y }

/-- The haversine intermediate value `a` computed at app.py line 34. -/
noncomputable def havTerm (lat1 lon1 lat2 lon2 : ℝ) : ℝ :=
  Real.sin (radians (lat2 - lat1) / 2) ^ 2 +
    Real.cos (radians lat1) * Real.cos (radians lat2) *
      Real.sin (radians (lon2 - lon1) / 2) ^ 2

/-- The exact real number whose truncation `get_distance` returns
(app.py line 35, before the `int(...)`). -/
noncomputable def havRealDist (lat1 lon1 lat2 lon2 : ℝ) : ℝ :=
  2 * 6371000 *
    atan2 (Real.sqrt (havTerm lat1 lon1 lat2 lon2))
      (Real.sqrt (1 - havTerm lat1 lon1 lat2 lon2))

/-- Embedding of `get_distance` (app.py lines 30-35): haversine distance in meters with
Earth radius 6371000 m, truncated to an integer by Python `int()`. -/
noncomputable def get_distance (lat1 lon1 lat2 lon2 : ℝ) : ℤ :=
  pyInt (havRealDist lat1 lon1 lat2 lon2)

/-- Modelled from the spec: "a standard haversine reference" value — the
great-circle distance in meters by the haversine formula with Earth radius
6,371,000 m, as a real number. -/
noncomputable def haversineRef (lat1 lon1 lat2 lon2 : ℝ) : ℝ :=
  2 * 6371000 * Real.arcsin (Real.sqrt (havTerm lat1 lon1 lat2 lon2))

/-- The unit direction vector of a (lat, lon) coordinate on the sphere,
used to relate the haversine formula to the central angle. -/
noncomputable def sphDir (lat lon : ℝ) : EuclideanSpace ℝ (Fin 3) :=
  (WithLp.equiv 2 (Fin 3 → ℝ)).symm
    ![Real.cos (radians lat) * Real.cos (radians lon),
      Real.cos (radians lat) * Real.sin (radians lon),
      Real.sin (radians lat)]

/-- A catalog stop: a dict `{"name": ..., "coords": ...}` in the source. -/
structure Stop where
  name : String
  coords : Coord

/-- A passenger request: a dict `{"start_stop": ..., "end_stop": ...}`
appended at app.py line 183. -/
structure Passenger where
  start_stop : Stop
  end_stop : Stop

/-- A successfully decoded response of the Road Network Service (OSRM):
path geometry, distance in meters, duration in seconds. -/
structure OsrmResponse where
  geometry : List Coord
  distance : ℝ
  duration : ℝ

/-- The session state fields that the embedded handlers read and write
(`st.session_state` in the source). -/
structure SessionState where
  depot : Coord
  passengers : List Passenger
  nearby_stops : List Stop
  temp_p : Option Stop
  current_route_path : Option (List Coord)
  summary : List String
  metrics : ℝ × ℝ

/-- Embedding of `get_osrm_data` (app.py lines 37-47). The HTTP request plus JSON and
polyline decoding is abstracted as the oracle `svc`; `none` stands for any
failure (network error, malformed response, timeout), which the source's
bare `except` turns into the fallback `(coords_list, 0, 0)`. -/
def get_osrm_data (svc : List Coord → Option OsrmResponse)
    (coords_list : List Coord) : List Coord × ℝ × ℝ :=
  if coords_list.length < 2 then ([], 0, 0)
  else
    match svc coords_list with
    | some r => (r.geometry, r.distance, r.duration)
    | none => (coords_list, 0, 0)

/-- Arc cost between two coordinates, as registered by the transit callback
at app.py line 80. -/
noncomputable def distC (a b : Coord) : ℤ := get_distance a.1 a.2 b.1 b.2

/-- Modelled from the spec: total cost of a closed tour — the sum of arc
costs along the route of node indices into `locs`, including the return leg
to the first node. -/
noncomputable def tourCost (locs : List Coord) (route : List ℕ) : ℤ :=
  ((route.zip (route.rotate 1)).map
    (fun ij => distC (locs.getD ij.1 (0, 0)) (locs.getD ij.2 (0, 0)))).sum

/-- Modelled from the spec: insert a pickup node `p` and its dropoff node `d`
into a route, `p` at position `i` and `d` a further `k` positions after `p`,
so that the pickup always precedes the dropoff. -/
def insertAt (route : List ℕ) (p d : ℕ) (i k : ℕ) : List ℕ :=
  route.take i ++ p :: ((route.drop i).take k ++ d :: (route.drop i).drop k)

/-- Modelled from the spec: cheapest insertion of one pickup/dropoff pair.
All precedence-valid insertion positions that keep the depot first are
enumerated; the pair is placed at the position pair minimizing the resulting
total tour cost, ties broken by the first (stable) candidate; if there is no
candidate the pair is appended at the tour's end as a fallback. This models
the first-solution strategy of the external OR-tools solver invoked at
app.py lines 78-93, which is not part of this repository. -/
noncomputable def insertPair (locs : List Coord) (route : List ℕ)
    (pd : ℕ × ℕ) : List ℕ :=
  match ((List.range route.length).flatMap fun i =>
      (List.range (route.length + 1)).map fun k => (i, k)).argmin
      (fun ik => tourCost locs (insertAt route pd.1 pd.2 (ik.1 + 1) ik.2)) with
  | some ik => insertAt route pd.1 pd.2 (ik.1 + 1) ik.2
  | none => route ++ [pd.1, pd.2]

/-- Modelled from the spec: the optimizer's search — starting from the
depot-only tour `[0]`, insert every pickup/dropoff pair by cheapest
insertion, in request order. -/
noncomputable def solveRoute (locs : List Coord) (pairs : List (ℕ × ℕ)) :
    List ℕ :=
  pairs.foldl (insertPair locs) [0]

/-- The node coordinate list built by the loop at app.py lines 71-76:
the depot first, then each request's pickup and dropoff coordinates. -/
def vrpLocs (depot : Coord) (passengers : List Passenger) : List Coord :=
  depot :: passengers.flatMap fun p => [p.start_stop.coords, p.end_stop.coords]

/-- The pickup/dropoff node index pairs built by the loop at app.py
lines 73-76: request `k` owns nodes `2k+1` (pickup) and `2k+2` (dropoff). -/
def vrpPairs (passengers : List Passenger) : List (ℕ × ℕ) :=
  (List.range passengers.length).map fun k => (2 * k + 1, 2 * k + 2)

/-- Embedding of `solve_vrp` (app.py lines 70-100). Lines 71-76 build the node coordinate
list (`vrpLocs`) and the index pairs (`vrpPairs`); the OR-tools search of
lines 78-93 is modelled from the spec by `solveRoute`; lines 94-98 walk the
solved route from the start node and finally append the end node, which for
this single-vehicle single-depot model is the depot node 0 again. -/
noncomputable def solve_vrp (depot : Coord) (passengers : List Passenger) :
    Option (List ℕ) × List Coord :=
  let route := solveRoute (vrpLocs depot passengers) (vrpPairs passengers)
  (some route,
    route.map (fun idx => (vrpLocs depot passengers).getD idx depot) ++
      [(vrpLocs depot passengers).getD 0 depot])

/-- Total straight-line cost of a coordinate path: sum of `get_distance`
over consecutive legs. -/
noncomputable def pathCost (path : List Coord) : ℤ :=
  ((path.zip path.tail).map fun ab => distC ab.1 ab.2).sum

/-- Embedding of `update_system` (app.py lines 51-68) as a state transformer. The two
outward calls are passed in as parameters: `osrm` is the Road Network
Service oracle consumed by `get_osrm_data`, and `solver` stands for the
call to `solve_vrp` at line 56 (returning the solution object, or `none`
on failure, together with the coordinate path). -/
noncomputable def update_system (osrm : List Coord → Option OsrmResponse)
    (solver : Coord → List Passenger → Option (List ℕ) × List Coord)
    (st : SessionState) : SessionState :=
  if st.passengers.isEmpty then
    { st with current_route_path := none, summary := [], metrics := (0, 0) }
  else
    match solver st.depot st.passengers with
    | (none, _) => st
    | (some _, path_coords) =>
      let rdd := get_osrm_data osrm path_coords
      let names := path_coords.map fun c =>
        if c = st.depot then "차고지"
        else
          match st.nearby_stops.find? (fun s => decide (s.coords = c)) with
          | some s => s.name
          | none => "정류장"
      { st with
        current_route_path := some rdd.1
        metrics := (rdd.2.1 / 1000, rdd.2.2 / 60)
        summary := names }

/-- The adding-passenger location-pick handler (app.py lines 179-185),
reached when the map is clicked in `pass` mode with a non-empty stop
catalog: snap the click to the nearest catalog stop (Python `min` with the
`get_distance` key, first minimizer on ties); store it as the pending
pickup if the buffer is empty, otherwise append the completed passenger
request, clear the buffer and recompute. -/
noncomputable def handle_pass_click (osrm : List Coord → Option OsrmResponse)
    (solver : Coord → List Passenger → Option (List ℕ) × List Coord)
    (st : SessionState) (pos : Coord) : SessionState :=
  match st.nearby_stops.argmin
      (fun s => get_distance pos.1 pos.2 s.coords.1 s.coords.2) with
  | none => st
  | some target =>
    match st.temp_p with
    | none => { st with temp_p := some target }
    | some tp =>
      update_system osrm solver
        { st with passengers := st.passengers ++ [⟨tp, target⟩], temp_p := none }

/-! ### Facts about `get_distance` -/

theorem atan2_nonneg {y : ℝ} (x : ℝ) (hy : 0 ≤ y) : 0 ≤ atan2 y x := by
  unfold atan2
  exact Complex.arg_nonneg_iff.mpr hy

theorem havRealDist_nonneg (lat1 lon1 lat2 lon2 : ℝ) :
    0 ≤ havRealDist lat1 lon1 lat2 lon2 := by
  unfold havRealDist
  have harg := @atan2_nonneg (Real.sqrt (havTerm lat1 lon1 lat2 lon2))
    (Real.sqrt (1 - havTerm lat1 lon1 lat2 lon2)) (Real.sqrt_nonneg _)
  nlinarith

theorem get_distance_eq_floor (lat1 lon1 lat2 lon2 : ℝ) :
    get_distance lat1 lon1 lat2 lon2 = ⌊havRealDist lat1 lon1 lat2 lon2⌋ := by
  unfold get_distance pyInt
  rw [if_neg (not_lt.mpr (havRealDist_nonneg lat1 lon1 lat2 lon2))]

theorem cos_radians_nonneg {lat : ℝ} (h : |lat| ≤ 90) :
    0 ≤ Real.cos (radians lat) := by
  rw [abs_le] at h
  refine Real.cos_nonneg_of_mem_Icc ⟨?_, ?_⟩ <;>
    · unfold radians
      nlinarith [Real.pi_nonneg]

theorem havTerm_eq (lat1 lon1 lat2 lon2 : ℝ) :
    havTerm lat1 lon1 lat2 lon2 =
      (1 - (Real.sin (radians lat1) * Real.sin (radians lat2) +
        Real.cos (radians lat1) * Real.cos (radians lat2) *
          Real.cos (radians lon2 - radians lon1))) / 2 := by
  have h1 : radians (lat2 - lat1) = radians lat2 - radians lat1 := by
    unfold radians; ring
  have h2 : radians (lon2 - lon1) = radians lon2 - radians lon1 := by
    unfold radians; ring
  have hs : ∀ x : ℝ, Real.sin (x / 2) ^ 2 = 1 / 2 - Real.cos x / 2 := by
    intro x
    have h2x : (2 : ℝ) * (x / 2) = x := by ring
    have := Real.sin_sq_eq_half_sub (x / 2)
    rwa [h2x] at this
  unfold havTerm
  rw [h1, h2, hs, hs, Real.cos_sub (radians lat2) (radians lat1)]
  ring

theorem havTerm_nonneg {lat1 lat2 : ℝ} (lon1 lon2 : ℝ)
    (h1 : |lat1| ≤ 90) (h2 : |lat2| ≤ 90) :
    0 ≤ havTerm lat1 lon1 lat2 lon2 := by
  have hc1 := cos_radians_nonneg h1
  have hc2 := cos_radians_nonneg h2
  unfold havTerm
  positivity

theorem havTerm_le_one {lat1 lat2 : ℝ} (lon1 lon2 : ℝ)
    (h1 : |lat1| ≤ 90) (h2 : |lat2| ≤ 90) :
    havTerm lat1 lon1 lat2 lon2 ≤ 1 := by
  have hc1 := cos_radians_nonneg h1
  have hc2 := cos_radians_nonneg h2
  rw [havTerm_eq]
  nlinarith [Real.cos_add (radians lat1) (radians lat2),
    Real.cos_le_one (radians lat1 + radians lat2),
    mul_nonneg hc1 hc2,
    mul_le_mul_of_nonneg_left
      (Real.neg_one_le_cos (radians lon2 - radians lon1)) (mul_nonneg hc1 hc2)]

theorem atan2_sqrt_eq_arcsin {a : ℝ} (h0 : 0 ≤ a) (h1 : a ≤ 1) :
    atan2 (Real.sqrt a) (Real.sqrt (1 - a)) = Real.arcsin (Real.sqrt a) := by
  unfold atan2
  have habs : Complex.abs { re := Real.sqrt (1 - a), im := Real.sqrt a } = 1 := by
    rw [Complex.abs_apply, Complex.normSq_mk,
      Real.mul_self_sqrt (by linarith), Real.mul_self_sqrt h0]
    rw [sub_add_cancel, Real.sqrt_one]
  rw [Complex.arg_of_re_nonneg (by simp [Real.sqrt_nonneg]), habs]
  simp

theorem havRealDist_eq_ref {lat1 lat2 : ℝ} (lon1 lon2 : ℝ)
    (h1 : |lat1| ≤ 90) (h2 : |lat2| ≤ 90) :
    havRealDist lat1 lon1 lat2 lon2 = haversineRef lat1 lon1 lat2 lon2 := by
  unfold havRealDist haversineRef
  rw [atan2_sqrt_eq_arcsin (havTerm_nonneg lon1 lon2 h1 h2)
    (havTerm_le_one lon1 lon2 h1 h2)]

/-- C4: for coordinates with valid latitudes, `get_distance` returns the
great-circle distance by the haversine formula with Earth radius 6,371,000 m:
it equals the integer truncation of the reference haversine value and so
differs from it by at most 1 m. It is a total function of its four real
arguments (pure, deterministic, no failure modes). -/
theorem get_distance_matches_haversine (lat1 lon1 lat2 lon2 : ℝ)
    (h1 : |lat1| ≤ 90) (h2 : |lat2| ≤ 90) :
    get_distance lat1 lon1 lat2 lon2 = ⌊haversineRef lat1 lon1 lat2 lon2⌋ ∧
      |(get_distance lat1 lon1 lat2 lon2 : ℝ) -
        haversineRef lat1 lon1 lat2 lon2| ≤ 1 := by
  have hfloor := get_distance_eq_floor lat1 lon1 lat2 lon2
  rw [havRealDist_eq_ref lon1 lon2 h1 h2] at hfloor
  refine ⟨hfloor, ?_⟩
  rw [hfloor]
  have hle := Int.floor_le (haversineRef lat1 lon1 lat2 lon2)
  have hlt := Int.lt_floor_add_one (haversineRef lat1 lon1 lat2 lon2)
  rw [abs_le]
  constructor <;> linarith

/-- Witness for C4 at the concrete coordinate pair (0,0), (0,0). -/
theorem get_distance_matches_haversine_witness :
    |(0 : ℝ)| ≤ 90 ∧
      (get_distance 0 0 0 0 = ⌊haversineRef 0 0 0 0⌋ ∧
        |(get_distance 0 0 0 0 : ℝ) - haversineRef 0 0 0 0| ≤ 1) :=
  ⟨by norm_num, get_distance_matches_haversine 0 0 0 0 (by norm_num) (by norm_num)⟩

/-! ### The haversine triangle inequality (claim C9) -/

open scoped RealInnerProductSpace

theorem arccos_inner_triangle {E : Type*} [NormedAddCommGroup E]
    [InnerProductSpace ℝ E] (u v w : E)
    (hu : ‖u‖ = 1) (hv : ‖v‖ = 1) (hw : ‖w‖ = 1) :
    Real.arccos ⟪u, w⟫ ≤ Real.arccos ⟪u, v⟫ + Real.arccos ⟪v, w⟫ := by
  have hb1 : |⟪u, v⟫| ≤ 1 := by
    simpa [hu, hv] using abs_real_inner_le_norm u v
  have hb2 : |⟪v, w⟫| ≤ 1 := by
    simpa [hv, hw] using abs_real_inner_le_norm v w
  have hb : |⟪u, w⟫| ≤ 1 := by
    simpa [hu, hw] using abs_real_inner_le_norm u w
  rw [abs_le] at hb1 hb2 hb
  by_cases hpi : Real.arccos ⟪u, v⟫ + Real.arccos ⟪v, w⟫ < Real.pi
  case neg => linarith [Real.arccos_le_pi ⟪u, w⟫, not_lt.mp hpi]
  case pos =>
  have hvv : ⟪v, v⟫ = 1 := by
    rw [real_inner_self_eq_norm_sq, hv]; norm_num
  have hinner : ⟪u - ⟪u, v⟫ • v, w - ⟪v, w⟫ • v⟫ =
      ⟪u, w⟫ - ⟪u, v⟫ * ⟪v, w⟫ := by
    simp only [inner_sub_left, inner_sub_right, real_inner_smul_left,
      real_inner_smul_right, hvv]
    ring
  have hnu : ‖u - ⟪u, v⟫ • v‖ = Real.sqrt (1 - ⟪u, v⟫ ^ 2) := by
    have h2 : ‖u - ⟪u, v⟫ • v‖ ^ 2 = 1 - ⟪u, v⟫ ^ 2 := by
      rw [norm_sub_sq_real, real_inner_smul_right, norm_smul, hu, hv,
        Real.norm_eq_abs, mul_one, sq_abs]
      ring
    rw [← h2, Real.sqrt_sq (norm_nonneg _)]
  have hnw : ‖w - ⟪v, w⟫ • v‖ = Real.sqrt (1 - ⟪v, w⟫ ^ 2) := by
    have h2 : ‖w - ⟪v, w⟫ • v‖ ^ 2 = 1 - ⟪v, w⟫ ^ 2 := by
      rw [norm_sub_sq_real, real_inner_smul_right, norm_smul, hw, hv,
        Real.norm_eq_abs, mul_one, sq_abs, real_inner_comm w v]
      ring
    rw [← h2, Real.sqrt_sq (norm_nonneg _)]
  have hcs := abs_real_inner_le_norm (u - ⟪u, v⟫ • v) (w - ⟪v, w⟫ • v)
  rw [hinner, hnu, hnw] at hcs
  have hkey : ⟪u, v⟫ * ⟪v, w⟫ -
      Real.sqrt (1 - ⟪u, v⟫ ^ 2) * Real.sqrt (1 - ⟪v, w⟫ ^ 2) ≤ ⟪u, w⟫ := by
    have := abs_le.mp hcs
    linarith [this.1]
  have hcosAB : Real.cos (Real.arccos ⟪u, v⟫ + Real.arccos ⟪v, w⟫) =
      ⟪u, v⟫ * ⟪v, w⟫ -
        Real.sqrt (1 - ⟪u, v⟫ ^ 2) * Real.sqrt (1 - ⟪v, w⟫ ^ 2) := by
    rw [Real.cos_add, Real.cos_arccos hb1.1 hb1.2, Real.cos_arccos hb2.1 hb2.2,
      Real.sin_arccos, Real.sin_arccos]
  have hmono : Real.arccos ⟪u, w⟫ ≤
      Real.arccos (Real.cos (Real.arccos ⟪u, v⟫ + Real.arccos ⟪v, w⟫)) := by
    apply Real.strictAntiOn_arccos.antitoneOn
    · rw [hcosAB]
      constructor
      · rw [← hcosAB]
        exact Real.neg_one_le_cos _
      · rw [← hcosAB]
        exact Real.cos_le_one _
    · exact ⟨hb.1, hb.2⟩
    · rw [hcosAB]
      exact hkey
  rwa [Real.arccos_cos
    (add_nonneg (Real.arccos_nonneg _) (Real.arccos_nonneg _))
    (le_of_lt hpi)] at hmono

theorem norm_sphDir (lat lon : ℝ) : ‖sphDir lat lon‖ = 1 := by
  rw [EuclideanSpace.norm_eq]
  simp only [sphDir, WithLp.equiv_symm_pi_apply, Real.norm_eq_abs, sq_abs]
  rw [Fin.sum_univ_three]
  simp only [Matrix.cons_val_zero, Matrix.cons_val_one, Matrix.head_cons,
    Matrix.cons_val_two, Matrix.tail_cons]
  have h1 : (Real.cos (radians lat) * Real.cos (radians lon)) ^ 2 +
      (Real.cos (radians lat) * Real.sin (radians lon)) ^ 2 +
      Real.sin (radians lat) ^ 2 = 1 := by
    linear_combination Real.cos (radians lat) ^ 2 *
        Real.sin_sq_add_cos_sq (radians lon) + Real.sin_sq_add_cos_sq (radians lat)
  rw [h1, Real.sqrt_one]

theorem inner_sphDir (lat1 lon1 lat2 lon2 : ℝ) :
    ⟪sphDir lat1 lon1, sphDir lat2 lon2⟫ =
      Real.sin (radians lat1) * Real.sin (radians lat2) +
        Real.cos (radians lat1) * Real.cos (radians lat2) *
          Real.cos (radians lon2 - radians lon1) := by
  rw [PiLp.inner_apply]
  simp only [sphDir, WithLp.equiv_symm_pi_apply, RCLike.inner_apply,
    starRingEnd_apply, star_trivial]
  rw [Fin.sum_univ_three]
  simp only [Matrix.cons_val_zero, Matrix.cons_val_one, Matrix.head_cons,
    Matrix.cons_val_two, Matrix.tail_cons]
  rw [Real.cos_sub]
  ring

theorem two_arcsin_sqrt_havTerm {lat1 lat2 : ℝ} (lon1 lon2 : ℝ)
    (h1 : |lat1| ≤ 90) (h2 : |lat2| ≤ 90) :
    2 * Real.arcsin (Real.sqrt (havTerm lat1 lon1 lat2 lon2)) =
      Real.arccos ⟪sphDir lat1 lon1, sphDir lat2 lon2⟫ := by
  have h0 := havTerm_nonneg lon1 lon2 h1 h2
  have hle := havTerm_le_one lon1 lon2 h1 h2
  have hinner : ⟪sphDir lat1 lon1, sphDir lat2 lon2⟫ =
      1 - 2 * havTerm lat1 lon1 lat2 lon2 := by
    rw [inner_sphDir]
    linarith [havTerm_eq lat1 lon1 lat2 lon2]
  rw [hinner]
  have ht0 : 0 ≤ Real.arcsin (Real.sqrt (havTerm lat1 lon1 lat2 lon2)) :=
    Real.arcsin_nonneg.mpr (Real.sqrt_nonneg _)
  have htle : Real.arcsin (Real.sqrt (havTerm lat1 lon1 lat2 lon2)) ≤ Real.pi / 2 :=
    Real.arcsin_le_pi_div_two _
  have hsin : Real.sin (Real.arcsin (Real.sqrt (havTerm lat1 lon1 lat2 lon2))) =
      Real.sqrt (havTerm lat1 lon1 lat2 lon2) :=
    Real.sin_arcsin (by linarith [Real.sqrt_nonneg (havTerm lat1 lon1 lat2 lon2)])
      (Real.sqrt_le_one.mpr hle)
  have hcos2 : Real.cos (2 * Real.arcsin (Real.sqrt (havTerm lat1 lon1 lat2 lon2))) =
      1 - 2 * havTerm lat1 lon1 lat2 lon2 := by
    rw [Real.cos_two_mul, Real.cos_sq', hsin, Real.sq_sqrt h0]
    ring
  rw [← hcos2, Real.arccos_cos (by linarith) (by linarith)]

theorem havRealDist_eq_angle {lat1 lat2 : ℝ} (lon1 lon2 : ℝ)
    (h1 : |lat1| ≤ 90) (h2 : |lat2| ≤ 90) :
    havRealDist lat1 lon1 lat2 lon2 =
      6371000 * Real.arccos ⟪sphDir lat1 lon1, sphDir lat2 lon2⟫ := by
  rw [havRealDist_eq_ref lon1 lon2 h1 h2]
  unfold haversineRef
  rw [← two_arcsin_sqrt_havTerm lon1 lon2 h1 h2]
  ring

/-- C9: triangle consistency of `get_distance`. For coordinates with valid
latitudes the exact (pre-truncation) haversine values satisfy the triangle
inequality, and the integer results satisfy it within the 1 m tolerance
forced by Python's `int()` truncation. -/
theorem get_distance_triangle (A B C : Coord)
    (hA : |A.1| ≤ 90) (hB : |B.1| ≤ 90) (hC : |C.1| ≤ 90) :
    havRealDist A.1 A.2 C.1 C.2 ≤
        havRealDist A.1 A.2 B.1 B.2 + havRealDist B.1 B.2 C.1 C.2 ∧
      get_distance A.1 A.2 C.1 C.2 ≤
        get_distance A.1 A.2 B.1 B.2 + get_distance B.1 B.2 C.1 C.2 + 1 := by
  have hangle := arccos_inner_triangle (sphDir A.1 A.2) (sphDir B.1 B.2)
    (sphDir C.1 C.2) (norm_sphDir A.1 A.2) (norm_sphDir B.1 B.2)
    (norm_sphDir C.1 C.2)
  have hreal : havRealDist A.1 A.2 C.1 C.2 ≤
      havRealDist A.1 A.2 B.1 B.2 + havRealDist B.1 B.2 C.1 C.2 := by
    rw [havRealDist_eq_angle A.2 C.2 hA hC, havRealDist_eq_angle A.2 B.2 hA hB,
      havRealDist_eq_angle B.2 C.2 hB hC]
    nlinarith [hangle]
  refine ⟨hreal, ?_⟩
  rw [get_distance_eq_floor, get_distance_eq_floor, get_distance_eq_floor]
  have f1 := Int.floor_le (havRealDist A.1 A.2 C.1 C.2)
  have f2 := Int.lt_floor_add_one (havRealDist A.1 A.2 B.1 B.2)
  have f3 := Int.lt_floor_add_one (havRealDist B.1 B.2 C.1 C.2)
  have hcast : ((⌊havRealDist A.1 A.2 C.1 C.2⌋ : ℝ)) <
      (⌊havRealDist A.1 A.2 B.1 B.2⌋ : ℝ) + (⌊havRealDist B.1 B.2 C.1 C.2⌋ : ℝ) + 2 := by
    linarith
  have hint : ⌊havRealDist A.1 A.2 C.1 C.2⌋ <
      ⌊havRealDist A.1 A.2 B.1 B.2⌋ + ⌊havRealDist B.1 B.2 C.1 C.2⌋ + 2 := by
    exact_mod_cast hcast
  omega

/-- Witness for C9 at the concrete points A = B = C = (0, 0). -/
theorem get_distance_triangle_witness :
    |((0 : ℝ), (0 : ℝ)).1| ≤ 90 ∧
      (havRealDist 0 0 0 0 ≤ havRealDist 0 0 0 0 + havRealDist 0 0 0 0 ∧
        get_distance 0 0 0 0 ≤ get_distance 0 0 0 0 + get_distance 0 0 0 0 + 1) :=
  ⟨by norm_num, get_distance_triangle (0, 0) (0, 0) (0, 0)
    (by norm_num) (by norm_num) (by norm_num)⟩

/-! ### Structural facts about the modelled optimizer -/

theorem insertAt_perm (route : List ℕ) (p d i k : ℕ) :
    (insertAt route p d i k).Perm (p :: d :: route) := by
  unfold insertAt
  refine List.perm_middle.trans (List.Perm.cons p ?_)
  have h1 : ((route.drop i).take k ++ d :: (route.drop i).drop k).Perm
      (d :: route.drop i) := by
    have h := @List.perm_middle _ d ((route.drop i).take k)
      ((route.drop i).drop k)
    rwa [List.take_append_drop] at h
  have h2 := (List.Perm.append_left (route.take i) h1).trans
    (@List.perm_middle _ d (route.take i) (route.drop i))
  rwa [List.take_append_drop] at h2

theorem insertAt_sublist (route : List ℕ) (p d i k : ℕ) :
    route.Sublist (insertAt route p d i k) := by
  unfold insertAt
  conv_lhs => rw [← List.take_append_drop i route]
  refine List.Sublist.append (List.Sublist.refl _) (List.Sublist.cons p ?_)
  conv_lhs => rw [← List.take_append_drop k (route.drop i)]
  exact List.Sublist.append (List.Sublist.refl _)
    (List.Sublist.cons d (List.Sublist.refl _))

theorem insertAt_pair_sublist (route : List ℕ) (p d i k : ℕ) :
    [p, d].Sublist (insertAt route p d i k) := by
  unfold insertAt
  refine List.Sublist.trans ?_ (List.sublist_append_right (route.take i) _)
  refine List.Sublist.cons₂ p ?_
  refine List.Sublist.trans ?_ (List.sublist_append_right ((route.drop i).take k) _)
  exact List.Sublist.cons₂ d (List.nil_sublist _)

theorem insertAt_head (x : ℕ) (route : List ℕ) (p d i k : ℕ) :
    (insertAt (x :: route) p d (i + 1) k).head? = some x := by
  unfold insertAt
  rw [List.take_succ_cons]
  simp

theorem insertPair_perm (locs : List Coord) (route : List ℕ) (pd : ℕ × ℕ) :
    (insertPair locs route pd).Perm (pd.1 :: pd.2 :: route) := by
  unfold insertPair
  split
  · exact insertAt_perm route pd.1 pd.2 _ _
  · exact List.perm_append_comm

theorem insertPair_sublist (locs : List Coord) (route : List ℕ) (pd : ℕ × ℕ) :
    route.Sublist (insertPair locs route pd) := by
  unfold insertPair
  split
  · exact insertAt_sublist route pd.1 pd.2 _ _
  · exact List.sublist_append_left route [pd.1, pd.2]

theorem insertPair_pair_sublist (locs : List Coord) (route : List ℕ)
    (pd : ℕ × ℕ) : [pd.1, pd.2].Sublist (insertPair locs route pd) := by
  unfold insertPair
  split
  · exact insertAt_pair_sublist route pd.1 pd.2 _ _
  · exact List.sublist_append_right route [pd.1, pd.2]

theorem insertPair_head (locs : List Coord) (x : ℕ) (route : List ℕ)
    (pd : ℕ × ℕ) : (insertPair locs (x :: route) pd).head? = some x := by
  unfold insertPair
  split
  · exact insertAt_head x route pd.1 pd.2 _ _
  · simp

theorem insertPair_length (locs : List Coord) (route : List ℕ) (pd : ℕ × ℕ) :
    (insertPair locs route pd).length = route.length + 2 := by
  have h := (insertPair_perm locs route pd).length_eq
  simpa using h

theorem foldl_insertPair_sublist (locs : List Coord) :
    ∀ (pairs : List (ℕ × ℕ)) (route : List ℕ),
      route.Sublist (pairs.foldl (insertPair locs) route) := by
  intro pairs
  induction pairs with
  | nil => exact fun route => List.Sublist.refl route
  | cons q rest ih =>
    intro route
    exact (insertPair_sublist locs route q).trans (ih (insertPair locs route q))

theorem foldl_insertPair_pair_sublist (locs : List Coord) (pd : ℕ × ℕ) :
    ∀ (pairs : List (ℕ × ℕ)) (route : List ℕ), pd ∈ pairs →
      [pd.1, pd.2].Sublist (pairs.foldl (insertPair locs) route) := by
  intro pairs
  induction pairs with
  | nil => intro route h; cases h
  | cons q rest ih =>
    intro route h
    rcases List.mem_cons.mp h with h | h
    · subst h
      exact (insertPair_pair_sublist locs route pd).trans
        (foldl_insertPair_sublist locs rest (insertPair locs route pd))
    · exact ih (insertPair locs route q) h

theorem foldl_insertPair_length (locs : List Coord) :
    ∀ (pairs : List (ℕ × ℕ)) (route : List ℕ),
      (pairs.foldl (insertPair locs) route).length =
        route.length + 2 * pairs.length := by
  intro pairs
  induction pairs with
  | nil => intro route; simp
  | cons q rest ih =>
    intro route
    rw [List.foldl_cons, ih (insertPair locs route q), insertPair_length]
    simp
    omega

theorem foldl_insertPair_head (locs : List Coord) :
    ∀ (pairs : List (ℕ × ℕ)) (x : ℕ) (route : List ℕ),
      (pairs.foldl (insertPair locs) (x :: route)).head? = some x := by
  intro pairs
  induction pairs with
  | nil => intro x route; rfl
  | cons q rest ih =>
    intro x route
    rw [List.foldl_cons]
    have hh := insertPair_head locs x route q
    cases hc : insertPair locs (x :: route) q with
    | nil => rw [hc] at hh; cases hh
    | cons y t =>
      rw [hc] at hh
      have hx : y = x := by
        simpa using hh
      subst hx
      exact ih y t

theorem solveRoute_length (locs : List Coord) (pairs : List (ℕ × ℕ)) :
    (solveRoute locs pairs).length = 1 + 2 * pairs.length :=
  foldl_insertPair_length locs pairs [0]

theorem solveRoute_head (locs : List Coord) (pairs : List (ℕ × ℕ)) :
    (solveRoute locs pairs).head? = some 0 :=
  foldl_insertPair_head locs pairs 0 []

theorem solveRoute_pair_sublist (locs : List Coord) (pairs : List (ℕ × ℕ))
    (pd : ℕ × ℕ) (h : pd ∈ pairs) :
    [pd.1, pd.2].Sublist (solveRoute locs pairs) :=
  foldl_insertPair_pair_sublist locs pd pairs [0] h

/-! ### Facts about `solve_vrp` -/

theorem solve_vrp_fst (depot : Coord) (ps : List Passenger) :
    (solve_vrp depot ps).1 =
      some (solveRoute (vrpLocs depot ps) (vrpPairs ps)) := rfl

theorem solve_vrp_snd (depot : Coord) (ps : List Passenger) :
    (solve_vrp depot ps).2 =
      (solveRoute (vrpLocs depot ps) (vrpPairs ps)).map
          (fun idx => (vrpLocs depot ps).getD idx depot) ++
        [(vrpLocs depot ps).getD 0 depot] := rfl

theorem vrpLocs_getD_zero (depot : Coord) (ps : List Passenger) :
    (vrpLocs depot ps).getD 0 depot = depot := rfl

theorem vrpPairs_length (ps : List Passenger) :
    (vrpPairs ps).length = ps.length := by
  unfold vrpPairs
  simp

theorem flatMap_coords_getD (d : Coord) (ps : List Passenger) :
    ∀ k (h : k < ps.length),
      (ps.flatMap fun p => [p.start_stop.coords, p.end_stop.coords]).getD
          (2 * k) d = ps[k].start_stop.coords ∧
        (ps.flatMap fun p => [p.start_stop.coords, p.end_stop.coords]).getD
          (2 * k + 1) d = ps[k].end_stop.coords := by
  induction ps with
  | nil =>
    intro k h
    exact absurd h (Nat.not_lt_zero k)
  | cons p rest ih =>
    intro k h
    cases k with
    | zero =>
      rw [List.flatMap_cons]
      simp
    | succ k =>
      have h2 : k < rest.length := by
        simp at h
        omega
      obtain ⟨ih1, ih2⟩ := ih k h2
      rw [List.flatMap_cons]
      constructor
      · show (p.start_stop.coords :: p.end_stop.coords ::
            rest.flatMap fun q => [q.start_stop.coords, q.end_stop.coords]).getD
            (2 * k + 1 + 1) d = _
        rw [List.getD_cons_succ, List.getD_cons_succ, List.getElem_cons_succ]
        exact ih1
      · show (p.start_stop.coords :: p.end_stop.coords ::
            rest.flatMap fun q => [q.start_stop.coords, q.end_stop.coords]).getD
            (2 * k + 1 + 1 + 1) d = _
        rw [List.getD_cons_succ, List.getD_cons_succ, List.getElem_cons_succ]
        exact ih2

theorem vrpLocs_getD (d : Coord) (ps : List Passenger) (k : ℕ)
    (h : k < ps.length) :
    (vrpLocs d ps).getD (2 * k + 1) d = ps[k].start_stop.coords ∧
      (vrpLocs d ps).getD (2 * k + 2) d = ps[k].end_stop.coords := by
  obtain ⟨h1, h2⟩ := flatMap_coords_getD d ps k h
  unfold vrpLocs
  constructor
  · rw [List.getD_cons_succ]
    exact h1
  · show (d :: _).getD (2 * k + 1 + 1) d = _
    rw [List.getD_cons_succ]
    exact h2

theorem sublist_pair_positions {α : Type*} {x y : α} :
    ∀ {l : List α}, [x, y].Sublist l →
      ∃ i j : ℕ, i < j ∧ l[i]? = some x ∧ l[j]? = some y := by
  intro l h
  induction l with
  | nil => cases h
  | cons a t ih =>
    cases h with
    | cons _ h1 =>
      obtain ⟨i, j, hij, hx, hy⟩ := ih h1
      refine ⟨i + 1, j + 1, by omega, ?_, ?_⟩
      · rw [List.getElem?_cons_succ]; exact hx
      · rw [List.getElem?_cons_succ]; exact hy
    | cons₂ _ h1 =>
      have hy : y ∈ t := List.singleton_sublist.mp h1
      obtain ⟨j, hj⟩ := List.mem_iff_getElem?.mp hy
      refine ⟨0, j + 1, by omega, by simp, ?_⟩
      rw [List.getElem?_cons_succ]; exact hj

theorem solve_vrp_pair_sublist (d : Coord) (ps : List Passenger)
    (p : Passenger) (hp : p ∈ ps) :
    [p.start_stop.coords, p.end_stop.coords].Sublist (solve_vrp d ps).2 := by
  obtain ⟨k, hk, hpk⟩ := List.getElem_of_mem hp
  have hpair : ((2 * k + 1 : ℕ), (2 * k + 2 : ℕ)) ∈ vrpPairs ps :=
    List.mem_map.mpr ⟨k, List.mem_range.mpr hk, rfl⟩
  have hsub := solveRoute_pair_sublist (vrpLocs d ps) (vrpPairs ps) _ hpair
  have hmap := hsub.map (fun idx => (vrpLocs d ps).getD idx d)
  obtain ⟨hg1, hg2⟩ := vrpLocs_getD d ps k hk
  rw [solve_vrp_snd]
  refine List.Sublist.trans ?_ (List.sublist_append_left _ _)
  simp only [List.map_cons, List.map_nil] at hmap
  rw [hg1, hg2, hpk] at hmap
  exact hmap

/-- C1: for every depot and request set, the coordinate sequence returned by
`solve_vrp` contains each request's pickup coordinate at a strictly earlier
position than its dropoff coordinate. -/
theorem solve_vrp_pickup_before_dropoff (depot : Coord) (ps : List Passenger)
    (p : Passenger) (hp : p ∈ ps) :
    ∃ i j : ℕ, i < j ∧ (solve_vrp depot ps).2[i]? = some p.start_stop.coords ∧
      (solve_vrp depot ps).2[j]? = some p.end_stop.coords :=
  sublist_pair_positions (solve_vrp_pair_sublist depot ps p hp)

/-- Witness for C1 at the depot and single request of spec Scenario 1. -/
theorem solve_vrp_pickup_before_dropoff_witness :
    (⟨⟨"P", (37.662, 126.748)⟩, ⟨"D", (37.663, 126.749)⟩⟩ : Passenger) ∈
        [(⟨⟨"P", (37.662, 126.748)⟩, ⟨"D", (37.663, 126.749)⟩⟩ : Passenger)] ∧
      ∃ i j : ℕ, i < j ∧
        (solve_vrp (37.6615, 126.7472)
            [⟨⟨"P", (37.662, 126.748)⟩, ⟨"D", (37.663, 126.749)⟩⟩]).2[i]? =
          some ((37.662 : ℝ), (126.748 : ℝ)) ∧
        (solve_vrp (37.6615, 126.7472)
            [⟨⟨"P", (37.662, 126.748)⟩, ⟨"D", (37.663, 126.749)⟩⟩]).2[j]? =
          some ((37.663 : ℝ), (126.749 : ℝ)) :=
  ⟨List.mem_singleton.mpr rfl,
    solve_vrp_pickup_before_dropoff (37.6615, 126.7472)
      [⟨⟨"P", (37.662, 126.748)⟩, ⟨"D", (37.663, 126.749)⟩⟩]
      ⟨⟨"P", (37.662, 126.748)⟩, ⟨"D", (37.663, 126.749)⟩⟩
      (List.mem_singleton.mpr rfl)⟩

/-- C5: determinism of the optimizer — two invocations of `solve_vrp` on
identical input (same depot, same request list in the same order) return the
same result; the embedding is a pure function and the modelled cheapest
insertion breaks ties by stable first-candidate order. -/
theorem solve_vrp_deterministic (d1 d2 : Coord) (ps1 ps2 : List Passenger)
    (hd : d1 = d2) (hp : ps1 = ps2) : solve_vrp d1 ps1 = solve_vrp d2 ps2 := by
  rw [hd, hp]

/-- Witness for C5 at the depot of the source's initial state. -/
theorem solve_vrp_deterministic_witness :
    ((37.661545 : ℝ), (126.747219 : ℝ)) = ((37.661545 : ℝ), (126.747219 : ℝ)) ∧
      solve_vrp (37.661545, 126.747219) [] =
        solve_vrp (37.661545, 126.747219) [] :=
  ⟨rfl, solve_vrp_deterministic (37.661545, 126.747219) (37.661545, 126.747219)
    [] [] rfl rfl⟩

theorem solve_vrp_path_length (d : Coord) (ps : List Passenger) :
    (solve_vrp d ps).2.length = 2 * ps.length + 2 := by
  rw [solve_vrp_snd]
  rw [List.length_append, List.length_map, solveRoute_length, vrpPairs_length]
  simp
  omega

theorem solve_vrp_path_head (d : Coord) (ps : List Passenger) :
    (solve_vrp d ps).2.head? = some d := by
  rw [solve_vrp_snd]
  have hh := solveRoute_head (vrpLocs d ps) (vrpPairs ps)
  cases hr : solveRoute (vrpLocs d ps) (vrpPairs ps) with
  | nil => rw [hr] at hh; cases hh
  | cons x t =>
    rw [hr] at hh
    have hx : x = 0 := by simpa using hh
    subst hx
    simp only [List.map_cons, List.cons_append, List.head?_cons]
    rfl

theorem solve_vrp_path_getLast (d : Coord) (ps : List Passenger) :
    (solve_vrp d ps).2.getLast? = some d := by
  rw [solve_vrp_snd, List.getLast?_concat]
  rfl

/-- C6 (amended): for every depot and request set of size `n`, the returned
path is an ordered coordinate sequence of length `2n + 2` that begins with
the depot coordinate, contains each request's pickup and dropoff
coordinates, and ends with the depot coordinate repeated (the source's route
walk appends the tour's end node, which is the depot, at app.py line 98). -/
theorem solve_vrp_path_shape (d : Coord) (ps : List Passenger) :
    (solve_vrp d ps).2.length = 2 * ps.length + 2 ∧
      (solve_vrp d ps).2.head? = some d ∧
      (solve_vrp d ps).2.getLast? = some d ∧
      ∀ p ∈ ps, p.start_stop.coords ∈ (solve_vrp d ps).2 ∧
        p.end_stop.coords ∈ (solve_vrp d ps).2 := by
  refine ⟨solve_vrp_path_length d ps, solve_vrp_path_head d ps,
    solve_vrp_path_getLast d ps, ?_⟩
  intro p hp
  have hsub := solve_vrp_pair_sublist d ps p hp
  exact ⟨hsub.subset (by simp), hsub.subset (by simp)⟩

/-- Witness for C6 (amended) at the depot and single request of Scenario 1. -/
theorem solve_vrp_path_shape_witness :
    (solve_vrp (37.6615, 126.7472)
        [⟨⟨"P", (37.662, 126.748)⟩, ⟨"D", (37.663, 126.749)⟩⟩]).2.length =
        2 * 1 + 2 ∧
      (solve_vrp (37.6615, 126.7472)
        [⟨⟨"P", (37.662, 126.748)⟩, ⟨"D", (37.663, 126.749)⟩⟩]).2.head? =
        some ((37.6615 : ℝ), (126.7472 : ℝ)) := by
  have h := solve_vrp_path_shape (37.6615, 126.7472)
    [⟨⟨"P", (37.662, 126.748)⟩, ⟨"D", (37.663, 126.749)⟩⟩]
  exact ⟨h.1, h.2.1⟩

/-- Counterexample to C6 as stated: at the depot and single request of
Scenario 1 (n = 1) the sequence returned by `solve_vrp` has length 4, not
2n + 1 = 3, and its last element repeats the depot coordinate. -/
theorem solve_vrp_path_shape_counterexample :
    (solve_vrp (37.6615, 126.7472)
        [⟨⟨"P", (37.662, 126.748)⟩, ⟨"D", (37.663, 126.749)⟩⟩]).2.length ≠
        2 * 1 + 1 ∧
      (solve_vrp (37.6615, 126.7472)
        [⟨⟨"P", (37.662, 126.748)⟩, ⟨"D", (37.663, 126.749)⟩⟩]).2.getLast? =
        some ((37.6615 : ℝ), (126.7472 : ℝ)) := by
  constructor
  · have h := solve_vrp_path_length (37.6615, 126.7472)
      [⟨⟨"P", (37.662, 126.748)⟩, ⟨"D", (37.663, 126.749)⟩⟩]
    simp only [List.length_singleton] at h
    omega
  · exact solve_vrp_path_getLast (37.6615, 126.7472)
      [⟨⟨"P", (37.662, 126.748)⟩, ⟨"D", (37.663, 126.749)⟩⟩]

theorem radians_zero : radians 0 = 0 := by
  unfold radians
  ring

theorem havTerm_self (lat lon : ℝ) : havTerm lat lon lat lon = 0 := by
  unfold havTerm
  rw [sub_self, sub_self, radians_zero]
  simp

theorem atan2_zero_one : atan2 0 1 = 0 := by
  unfold atan2
  have h1 : ({ re := 1, im := 0 } : ℂ) = 1 := by
    apply Complex.ext <;> simp
  rw [h1, Complex.arg_one]

theorem havRealDist_self (lat lon : ℝ) : havRealDist lat lon lat lon = 0 := by
  unfold havRealDist
  rw [havTerm_self, Real.sqrt_zero, sub_zero, Real.sqrt_one, atan2_zero_one,
    mul_zero]

theorem get_distance_self (lat lon : ℝ) : get_distance lat lon lat lon = 0 := by
  unfold get_distance
  rw [havRealDist_self]
  unfold pyInt
  rw [if_neg (lt_irrefl (0 : ℝ)), Int.floor_zero]

/-- C7: for every depot, `solve_vrp` with an empty request set succeeds and
returns the degenerate depot-only path (the depot node walked from start to
end, i.e. the depot coordinate twice) whose total straight-line cost is
zero. -/
theorem solve_vrp_empty (d : Coord) :
    solve_vrp d [] = (some [0], [d, d]) ∧
      pathCost (solve_vrp d []).2 = 0 := by
  constructor
  · rfl
  · show pathCost [d, d] = 0
    unfold pathCost distC
    simp [get_distance_self]

/-! ### The orchestrator and the interaction handler -/

/-- C3: for a coordinate list of length at least 2, if the road network
service call fails, `get_osrm_data` returns the input coordinate list itself
as the path geometry with distance 0 and duration 0. The source's bare
`except` at app.py line 46 swallows every failure, and the embedding is a
total function, so no exception reaches the caller. -/
theorem get_osrm_data_fallback (svc : List Coord → Option OsrmResponse)
    (coords_list : List Coord) (hlen : 2 ≤ coords_list.length)
    (hfail : svc coords_list = none) :
    get_osrm_data svc coords_list = (coords_list, 0, 0) := by
  unfold get_osrm_data
  rw [if_neg (by omega), hfail]

/-- Witness for C3: a concrete two-point list with a failing service. -/
theorem get_osrm_data_fallback_witness :
    2 ≤ ([((37.66 : ℝ), (126.74 : ℝ)),
        ((37.67 : ℝ), (126.75 : ℝ))] : List Coord).length ∧
      get_osrm_data (fun _ => none)
          [((37.66 : ℝ), (126.74 : ℝ)), ((37.67 : ℝ), (126.75 : ℝ))] =
        ([((37.66 : ℝ), (126.74 : ℝ)), ((37.67 : ℝ), (126.75 : ℝ))], 0, 0) :=
  ⟨by simp, get_osrm_data_fallback (fun _ => none)
    [((37.66 : ℝ), (126.74 : ℝ)), ((37.67 : ℝ), (126.75 : ℝ))] (by simp) rfl⟩

theorem update_system_clear (osrm : List Coord → Option OsrmResponse)
    (solver : Coord → List Passenger → Option (List ℕ) × List Coord)
    (st : SessionState) (h : st.passengers = []) :
    update_system osrm solver st =
      { st with current_route_path := none, summary := [], metrics := (0, 0) } := by
  unfold update_system
  rw [h]
  rfl

/-- C2: when the request set is empty, one invocation of `update_system`
sets the route plan to the cleared state (no path, empty stop-name list,
zero metrics) and its result does not depend on the optimizer or on the
road network service oracle — neither collaborator is consulted. -/
theorem update_system_empty (osrm osrm2 : List Coord → Option OsrmResponse)
    (solver solver2 : Coord → List Passenger → Option (List ℕ) × List Coord)
    (st : SessionState) (h : st.passengers = []) :
    update_system osrm solver st =
        { st with current_route_path := none, summary := [], metrics := (0, 0) } ∧
      update_system osrm solver st = update_system osrm2 solver2 st := by
  refine ⟨update_system_clear osrm solver st h, ?_⟩
  rw [update_system_clear osrm solver st h, update_system_clear osrm2 solver2 st h]

/-- Witness for C2 at a concrete empty-request state. -/
theorem update_system_empty_witness :
    ({ depot := (37.661545, 126.747219), passengers := [],
        nearby_stops := [], temp_p := none,
        current_route_path := some [((37.0 : ℝ), (126.0 : ℝ))],
        summary := ["차고지"], metrics := (5, 7) } : SessionState).passengers = [] ∧
      (update_system (fun _ => none) (fun _ _ => (none, []))
          { depot := (37.661545, 126.747219), passengers := [],
            nearby_stops := [], temp_p := none,
            current_route_path := some [((37.0 : ℝ), (126.0 : ℝ))],
            summary := ["차고지"], metrics := (5, 7) } =
        { depot := (37.661545, 126.747219), passengers := [],
          nearby_stops := [], temp_p := none,
          current_route_path := none, summary := [], metrics := (0, 0) } ∧
      update_system (fun _ => none) (fun _ _ => (none, []))
          { depot := (37.661545, 126.747219), passengers := [],
            nearby_stops := [], temp_p := none,
            current_route_path := some [((37.0 : ℝ), (126.0 : ℝ))],
            summary := ["차고지"], metrics := (5, 7) } =
        update_system (fun _ => some ⟨[], 1, 1⟩) (fun d _ => (some [0], [d]))
          { depot := (37.661545, 126.747219), passengers := [],
            nearby_stops := [], temp_p := none,
            current_route_path := some [((37.0 : ℝ), (126.0 : ℝ))],
            summary := ["차고지"], metrics := (5, 7) }) :=
  ⟨rfl, update_system_empty (fun _ => none) (fun _ => some ⟨[], 1, 1⟩)
    (fun _ _ => (none, [])) (fun d _ => (some [0], [d])) _ rfl⟩

/-- C10: with a non-empty request set, if the optimizer call yields no
solution, `update_system` returns the session state completely unchanged —
the previous route plan, stop-name summary and metrics are all kept, and no
clearing and no error signalling happens. -/
theorem update_system_no_solution (osrm : List Coord → Option OsrmResponse)
    (solver : Coord → List Passenger → Option (List ℕ) × List Coord)
    (st : SessionState) (hne : st.passengers ≠ [])
    (hsol : (solver st.depot st.passengers).1 = none) :
    update_system osrm solver st = st := by
  have hE : st.passengers.isEmpty = false := by
    cases hps : st.passengers with
    | nil => exact absurd hps hne
    | cons a t => rfl
  unfold update_system
  rw [if_neg (by simp [hE])]
  cases hs : solver st.depot st.passengers with
  | mk fst snd =>
    rw [hs] at hsol
    simp only at hsol
    subst hsol
    rfl

/-- Witness for C10 at a concrete one-request state with a failing solver. -/
theorem update_system_no_solution_witness :
    ({ depot := (37.661545, 126.747219),
        passengers := [⟨⟨"P", (37.662, 126.748)⟩, ⟨"D", (37.663, 126.749)⟩⟩],
        nearby_stops := [], temp_p := none,
        current_route_path := some [((37.0 : ℝ), (126.0 : ℝ))],
        summary := ["차고지"], metrics := (5, 7) } : SessionState).passengers ≠ [] ∧
      update_system (fun _ => none) (fun _ _ => (none, []))
          { depot := (37.661545, 126.747219),
            passengers := [⟨⟨"P", (37.662, 126.748)⟩, ⟨"D", (37.663, 126.749)⟩⟩],
            nearby_stops := [], temp_p := none,
            current_route_path := some [((37.0 : ℝ), (126.0 : ℝ))],
            summary := ["차고지"], metrics := (5, 7) } =
        { depot := (37.661545, 126.747219),
          passengers := [⟨⟨"P", (37.662, 126.748)⟩, ⟨"D", (37.663, 126.749)⟩⟩],
          nearby_stops := [], temp_p := none,
          current_route_path := some [((37.0 : ℝ), (126.0 : ℝ))],
          summary := ["차고지"], metrics := (5, 7) } :=
  ⟨by simp, update_system_no_solution (fun _ => none) (fun _ _ => (none, []))
    _ (by simp) rfl⟩

attribute [irreducible] get_distance

/-- C8: a location-pick event in adding-passenger mode with a non-empty stop
catalog resolves to a catalog stop minimizing `get_distance` to the picked
position; if the pending-pickup buffer is empty that stop is stored as the
pending pickup, otherwise a request from the pending pickup to that stop is
appended, the buffer is cleared and the recompute orchestrator
(`update_system`) runs on the mutated state. -/
theorem handle_pass_click_spec (osrm : List Coord → Option OsrmResponse)
    (solver : Coord → List Passenger → Option (List ℕ) × List Coord)
    (st : SessionState) (pos : Coord) (hne : st.nearby_stops ≠ []) :
    ∃ target ∈ st.nearby_stops,
      (∀ s ∈ st.nearby_stops,
        get_distance pos.1 pos.2 target.coords.1 target.coords.2 ≤
          get_distance pos.1 pos.2 s.coords.1 s.coords.2) ∧
      (st.temp_p = none →
        handle_pass_click osrm solver st pos = { st with temp_p := some target }) ∧
      (∀ tp, st.temp_p = some tp →
        handle_pass_click osrm solver st pos =
          update_system osrm solver
            { st with
                passengers := st.passengers ++ [⟨tp, target⟩]
                temp_p := none }) := by
  cases harg : st.nearby_stops.argmin
      (fun s => get_distance pos.1 pos.2 s.coords.1 s.coords.2) with
  | none =>
    rw [List.argmin_eq_none] at harg
    exact absurd harg hne
  | some target =>
    have hmem : target ∈ st.nearby_stops.argmin
        (fun s => get_distance pos.1 pos.2 s.coords.1 s.coords.2) := harg
    refine ⟨target, List.argmin_mem hmem, ?_, ?_, ?_⟩
    · intro s hs
      exact List.le_of_mem_argmin hs hmem
    · intro htp
      unfold handle_pass_click
      rw [harg, htp]
    · intro tp htp
      unfold handle_pass_click
      rw [harg, htp]


/-- Witness for C8 at a concrete one-stop catalog. -/
theorem handle_pass_click_spec_witness :
    ({ depot := (37.661545, 126.747219)
       passengers := []
       nearby_stops := [⟨"S", (37.66, 126.75)⟩]
       temp_p := none
       current_route_path := none
       summary := []
       metrics := (0, 0) } : SessionState).nearby_stops ≠ [] ∧
      ∃ target ∈ ({ depot := (37.661545, 126.747219)
                    passengers := []
                    nearby_stops := [⟨"S", (37.66, 126.75)⟩]
                    temp_p := none
                    current_route_path := none
                    summary := []
                    metrics := (0, 0) } : SessionState).nearby_stops,
        (∀ s ∈ ({ depot := (37.661545, 126.747219)
                  passengers := []
                  nearby_stops := [⟨"S", (37.66, 126.75)⟩]
                  temp_p := none
                  current_route_path := none
                  summary := []
                  metrics := (0, 0) } : SessionState).nearby_stops,
          get_distance (37.0 : ℝ) (126.0 : ℝ) target.coords.1 target.coords.2 ≤
            get_distance (37.0 : ℝ) (126.0 : ℝ) s.coords.1 s.coords.2) ∧
        (({ depot := (37.661545, 126.747219)
            passengers := []
            nearby_stops := [⟨"S", (37.66, 126.75)⟩]
            temp_p := none
            current_route_path := none
            summary := []
            metrics := (0, 0) } : SessionState).temp_p = none →
          handle_pass_click (fun _ => none) (fun _ _ => (none, []))
              { depot := (37.661545, 126.747219)
                passengers := []
                nearby_stops := [⟨"S", (37.66, 126.75)⟩]
                temp_p := none
                current_route_path := none
                summary := []
                metrics := (0, 0) } (37.0, 126.0) =
            { depot := (37.661545, 126.747219)
              passengers := []
              nearby_stops := [⟨"S", (37.66, 126.75)⟩]
              temp_p := some target
              current_route_path := none
              summary := []
              metrics := (0, 0) }) ∧
        (∀ tp, ({ depot := (37.661545, 126.747219)
                  passengers := []
                  nearby_stops := [⟨"S", (37.66, 126.75)⟩]
                  temp_p := none
                  current_route_path := none
                  summary := []
                  metrics := (0, 0) } : SessionState).temp_p = some tp →
          handle_pass_click (fun _ => none) (fun _ _ => (none, []))
              { depot := (37.661545, 126.747219)
                passengers := []
                nearby_stops := [⟨"S", (37.66, 126.75)⟩]
                temp_p := none
                current_route_path := none
                summary := []
                metrics := (0, 0) } (37.0, 126.0) =
            update_system (fun _ => none) (fun _ _ => (none, []))
              { depot := (37.661545, 126.747219)
                passengers := [] ++ [⟨tp, target⟩]
                nearby_stops := [⟨"S", (37.66, 126.75)⟩]
                temp_p := none
                current_route_path := none
                summary := []
                metrics := (0, 0) }) :=
  ⟨by simp, handle_pass_click_spec (fun _ => none) (fun _ _ => (none, []))
    { depot := (37.661545, 126.747219)
      passengers := []
      nearby_stops := [⟨"S", (37.66, 126.75)⟩]
      temp_p := none
      current_route_path := none
      summary := []
      metrics := (0, 0) }
    (37.0, 126.0) (by simp)⟩
